import Mathlib

/-!
Shallow embedding of the standings computation engine in
src/src/routes/index.tsx: the JavaScript numeric values the engine can
produce (exact rationals plus NaN and the infinities), JS parseInt, the
score function getIndex, the display formatter formatBigNumber, the
weight label getWeightText, the population-ratio display expression, the
in-place sort of the medal table, the URL query-parameter configuration
codec, and the zod feed schemas.
-/

/-- JavaScript number values as used by the engine: exact rationals stand
in for finite IEEE doubles, together with the three non-finite values
NaN, Infinity and -Infinity (negative zero is identified with zero). -/
inductive JSNum where
  | nan : JSNum
  | inf : JSNum
  | ninf : JSNum
  | num : ℚ → JSNum
deriving DecidableEq, Repr

/-- JS addition on `JSNum`, with NaN propagation and the IEEE rules for
infinities. -/
def jadd : JSNum → JSNum → JSNum
  | JSNum.nan, _ => JSNum.nan
  | _, JSNum.nan => JSNum.nan
  | JSNum.num a, JSNum.num b => JSNum.num (a + b)
  | JSNum.inf, JSNum.num _ => JSNum.inf
  | JSNum.num _, JSNum.inf => JSNum.inf
  | JSNum.ninf, JSNum.num _ => JSNum.ninf
  | JSNum.num _, JSNum.ninf => JSNum.ninf
  | JSNum.inf, JSNum.inf => JSNum.inf
  | JSNum.ninf, JSNum.ninf => JSNum.ninf
  | JSNum.inf, JSNum.ninf => JSNum.nan
  | JSNum.ninf, JSNum.inf => JSNum.nan

/-- JS subtraction on `JSNum`. -/
def jsub : JSNum → JSNum → JSNum
  | JSNum.nan, _ => JSNum.nan
  | _, JSNum.nan => JSNum.nan
  | JSNum.num a, JSNum.num b => JSNum.num (a - b)
  | JSNum.inf, JSNum.num _ => JSNum.inf
  | JSNum.num _, JSNum.inf => JSNum.ninf
  | JSNum.ninf, JSNum.num _ => JSNum.ninf
  | JSNum.num _, JSNum.ninf => JSNum.inf
  | JSNum.inf, JSNum.inf => JSNum.nan
  | JSNum.ninf, JSNum.ninf => JSNum.nan
  | JSNum.inf, JSNum.ninf => JSNum.inf
  | JSNum.ninf, JSNum.inf => JSNum.ninf

/-- JS multiplication on `JSNum`; Infinity times zero is NaN. -/
def jmul : JSNum → JSNum → JSNum
  | JSNum.nan, _ => JSNum.nan
  | _, JSNum.nan => JSNum.nan
  | JSNum.num a, JSNum.num b => JSNum.num (a * b)
  | JSNum.inf, JSNum.num b =>
      if b = 0 then JSNum.nan else if 0 < b then JSNum.inf else JSNum.ninf
  | JSNum.num a, JSNum.inf =>
      if a = 0 then JSNum.nan else if 0 < a then JSNum.inf else JSNum.ninf
  | JSNum.ninf, JSNum.num b =>
      if b = 0 then JSNum.nan else if 0 < b then JSNum.ninf else JSNum.inf
  | JSNum.num a, JSNum.ninf =>
      if a = 0 then JSNum.nan else if 0 < a then JSNum.ninf else JSNum.inf
  | JSNum.inf, JSNum.inf => JSNum.inf
  | JSNum.ninf, JSNum.ninf => JSNum.inf
  | JSNum.inf, JSNum.ninf => JSNum.ninf
  | JSNum.ninf, JSNum.inf => JSNum.ninf

/-- JS division on `JSNum`: a nonzero finite number divided by zero gives
a signed infinity, zero divided by zero gives NaN, and a finite number
divided by an infinity gives zero. -/
def jdiv : JSNum → JSNum → JSNum
  | JSNum.nan, _ => JSNum.nan
  | _, JSNum.nan => JSNum.nan
  | JSNum.num a, JSNum.num b =>
      if b = 0 then
        if a = 0 then JSNum.nan else if 0 < a then JSNum.inf else JSNum.ninf
      else JSNum.num (a / b)
  | JSNum.inf, JSNum.num b => if 0 ≤ b then JSNum.inf else JSNum.ninf
  | JSNum.ninf, JSNum.num b => if 0 ≤ b then JSNum.ninf else JSNum.inf
  | JSNum.num _, JSNum.inf => JSNum.num 0
  | JSNum.num _, JSNum.ninf => JSNum.num 0
  | JSNum.inf, JSNum.inf => JSNum.nan
  | JSNum.inf, JSNum.ninf => JSNum.nan
  | JSNum.ninf, JSNum.inf => JSNum.nan
  | JSNum.ninf, JSNum.ninf => JSNum.nan

/-- JS strict less-than on `JSNum`: any comparison with NaN is false. -/
def jlt : JSNum → JSNum → Bool
  | JSNum.nan, _ => false
  | _, JSNum.nan => false
  | JSNum.num a, JSNum.num b => decide (a < b)
  | JSNum.num _, JSNum.inf => true
  | JSNum.num _, JSNum.ninf => false
  | JSNum.inf, _ => false
  | JSNum.ninf, JSNum.ninf => false
  | JSNum.ninf, _ => true

/-- JS greater-or-equal on `JSNum`: any comparison with NaN is false. -/
def jge : JSNum → JSNum → Bool
  | JSNum.nan, _ => false
  | _, JSNum.nan => false
  | JSNum.num a, JSNum.num b => decide (b ≤ a)
  | JSNum.inf, _ => true
  | JSNum.num _, JSNum.inf => false
  | JSNum.ninf, JSNum.inf => false
  | JSNum.num _, JSNum.ninf => true
  | JSNum.ninf, JSNum.ninf => true
  | JSNum.ninf, JSNum.num _ => false

/-- True exactly on finite (real-valued) JS numbers. -/
def JSNum.isReal : JSNum → Bool
  | JSNum.num _ => true
  | _ => false

/-- Value of a list of decimal digit characters. -/
def decValue (cs : List Char) : ℕ :=
  cs.foldl (fun acc c => acc * 10 + (c.toNat - 48)) 0

/-- Recognizer for JS hexadecimal digits. -/
def isHexDigitJS (c : Char) : Bool :=
  c.isDigit || (decide ('a' ≤ c) && decide (c ≤ 'f')) ||
    (decide ('A' ≤ c) && decide (c ≤ 'F'))

/-- Value of one hexadecimal digit character. -/
def hexDigitValue (c : Char) : ℕ :=
  if c.isDigit then c.toNat - 48
  else if decide ('a' ≤ c) then c.toNat - 87
  else c.toNat - 55

/-- Value of a list of hexadecimal digit characters. -/
def hexValue (cs : List Char) : ℕ :=
  cs.foldl (fun acc c => acc * 16 + hexDigitValue c) 0

/-- JS parseInt with the radix argument omitted, as called by the source:
skip leading whitespace, read an optional sign, then either a 0x/0X
hexadecimal prefix followed by hex digits or a run of decimal digits.
If no digit is found the JS result is NaN, modelled here as none. -/
def parseIntJS (s : String) : Option ℤ :=
  let cs := s.toList.dropWhile Char.isWhitespace
  let sign : ℤ :=
    match cs with
    | '-' :: _ => -1
    | _ => 1
  let cs1 :=
    match cs with
    | '-' :: rest => rest
    | '+' :: rest => rest
    | _ => cs
  match cs1 with
  | '0' :: 'x' :: rest =>
      let ds := rest.takeWhile isHexDigitJS
      if ds.isEmpty then none else some (sign * (hexValue ds : ℤ))
  | '0' :: 'X' :: rest =>
      let ds := rest.takeWhile isHexDigitJS
      if ds.isEmpty then none else some (sign * (hexValue ds : ℤ))
  | _ =>
      let ds := cs1.takeWhile Char.isDigit
      if ds.isEmpty then none else some (sign * (decValue ds : ℤ))

/-- String interpolation of a JS parseInt result: NaN prints as NaN. -/
def jsIntToString : Option ℤ → String
  | none => "NaN"
  | some n => toString n

/-- The parseInt result lifted to a JS number, NaN when no digits parsed. -/
def jsOfParseInt (w : String) : JSNum :=
  match parseIntJS w with
  | none => JSNum.nan
  | some n => JSNum.num (n : ℚ)

/-- getWeightText from the source: parseInt the weight string, special
label for 0 and 1, otherwise the plural template with the number (or NaN)
interpolated. -/
def getWeightText (weight : String) : String :=
  let num := parseIntJS weight
  if num = some 0 then "Tiebreaker"
  else if num = some 1 then "1 point"
  else jsIntToString num ++ " points"

/-- One row of the validated MedalTableNOC array; numeric JS fields are
modelled as rationals. -/
structure MedalTableNOC where
  n_NOCID : ℚ
  n_NOCGeoID : ℚ
  c_NOC : String
  c_NOCShort : String
  n_Gold : ℚ
  n_Silver : ℚ
  n_Bronze : ℚ
  n_Total : ℚ
  n_RankGold : ℚ
  n_RankSortGold : ℚ
  n_RankTotal : ℚ
  n_RankSortTotal : ℚ
deriving DecidableEq, Repr

/-- The validated MedalTableInfo record. -/
structure MedalTableInfo where
  c_AsOfDate : String
  n_EventsTotal : ℚ
  n_EventsFinished : ℚ
  n_EventsScheduled : ℚ
  n_MedalsGold : ℚ
  n_MedalsSilver : ℚ
  n_MedalsBronze : ℚ
  n_MedalsTotal : ℚ
  n_SportID : ℚ
  c_Sport : Option String
  c_SportShort : Option String
deriving DecidableEq, Repr

/-- The whole validated feed. -/
structure MedalTable where
  MedalTableInfo : MedalTableInfo
  MedalTableNOC : List MedalTableNOC
deriving DecidableEq, Repr

/-- Modelled from the spec: the static Population Lookup imported from
src/data/population (a file that is not part of src/). Per the spec it is
a static mapping from country short-code to population with absent
entries a legitimate outcome, so it is taken as an arbitrary partial map
parameter. -/
def Population : Type := String → Option ℕ

/-- A population lookup result under JS arithmetic: an absent entry is
undefined, which ToNumber converts to NaN in any arithmetic operation. -/
def jsOfPop : Option ℕ → JSNum
  | none => JSNum.nan
  | some n => JSNum.num (n : ℚ)

/-- getIndex from the source: the ranking score of one team. The weight
constants appear in the source as 10e-6, 10e-9 and 10e-12, that is
1/100000, 1/100000000 and 1/100000000000. -/
def getIndex (pop : Population) (team : MedalTableNOC)
    (goldWeight silverWeight bronzeWeight : String)
    (divideByPopulation : Bool) : JSNum :=
  jdiv
    (jadd
      (jadd
        (jmul (JSNum.num team.n_Gold)
          (jadd (jsOfParseInt goldWeight) (JSNum.num (1 / 100000))))
        (jmul (JSNum.num team.n_Silver)
          (jadd (jsOfParseInt silverWeight) (JSNum.num (1 / 100000000)))))
      (jmul (JSNum.num team.n_Bronze)
        (jadd (jsOfParseInt bronzeWeight) (JSNum.num (1 / 100000000000)))))
    (if divideByPopulation then jsOfPop (pop team.c_NOCShort) else JSNum.num 1)

/-- JS toFixed with 0 digits on a `JSNum`: non-finite values print their
names; a finite value rounds to the nearest integer, ties toward plus
infinity, which is what the ECMAScript toFixed specification prescribes
(choose the larger candidate on a tie). -/
def toFixed0 : JSNum → String
  | JSNum.nan => "NaN"
  | JSNum.inf => "Infinity"
  | JSNum.ninf => "-Infinity"
  | JSNum.num q => toString (Int.floor (q + 1 / 2))

/-- formatBigNumber from the source. -/
def formatBigNumber (n : JSNum) : String :=
  if jlt n (JSNum.num 1000) then toFixed0 n
  else if jlt n (JSNum.num 1000000) then toFixed0 (jdiv n (JSNum.num 1000)) ++ "K"
  else if jlt n (JSNum.num 1000000000) then
    toFixed0 (jdiv n (JSNum.num 1000000)) ++ "M"
  else toFixed0 (jdiv n (JSNum.num 1000000000)) ++ "B"

/-- The population-ratio display expression from the source (the number
shown after the words 1 in when divide-by-population is on): population
of the team divided by its integer weighted total, formatted through
formatBigNumber. -/
def popRatioText (pop : Population) (team : MedalTableNOC)
    (goldWeight silverWeight bronzeWeight : String) : String :=
  formatBigNumber
    (jdiv (jsOfPop (pop team.c_NOCShort))
      (jadd
        (jadd (jmul (JSNum.num team.n_Gold) (jsOfParseInt goldWeight))
          (jmul (JSNum.num team.n_Silver) (jsOfParseInt silverWeight)))
        (jmul (JSNum.num team.n_Bronze) (jsOfParseInt bronzeWeight))))

/-- The JS sort comparator of the source applied to two teams: score of b
minus score of a, so that higher scores come first. -/
def medalCmp (pop : Population) (goldWeight silverWeight bronzeWeight : String)
    (divideByPopulation : Bool) (a b : MedalTableNOC) : JSNum :=
  jsub (getIndex pop b goldWeight silverWeight bronzeWeight divideByPopulation)
    (getIndex pop a goldWeight silverWeight bronzeWeight divideByPopulation)

/-- ECMAScript SortCompare keeps element a before element b unless the
comparator value is a number greater than zero; a NaN comparator value is
treated as zero. -/
def jsCmpKeeps : JSNum → Bool
  | JSNum.num q => decide (q ≤ 0)
  | JSNum.inf => false
  | _ => true

/-- The may-stay-before relation induced by the sort comparator of the
source. -/
def medalSortLe (pop : Population) (goldWeight silverWeight bronzeWeight : String)
    (divideByPopulation : Bool) (a b : MedalTableNOC) : Bool :=
  jsCmpKeeps (medalCmp pop goldWeight silverWeight bronzeWeight divideByPopulation a b)

/-- Stable insertion of one element into a list: it goes in front of the
first element it may stay before. -/
def insertSorted (le : α → α → Bool) (x : α) : List α → List α
  | [] => [x]
  | y :: ys => if le x y then x :: y :: ys else y :: insertSorted le x ys

/-- Stable insertion sort. Array.prototype.sort is required to be stable
since ES2019, and for a consistent comparator the stable sorted
permutation is unique, so any stable sort models it. -/
def stableSort (le : α → α → Bool) : List α → List α
  | [] => []
  | x :: xs => insertSorted le x (stableSort le xs)

/-- The sort the source performs on medals.value.MedalTableNOC.
Array.prototype.sort reorders the array in place, so after the call the
array holds exactly this list. -/
def sortMedals (pop : Population) (goldWeight silverWeight bronzeWeight : String)
    (divideByPopulation : Bool) (l : List MedalTableNOC) : List MedalTableNOC :=
  stableSort (medalSortLe pop goldWeight silverWeight bronzeWeight divideByPopulation) l

/-- The ranking configuration as the source holds it: the three weight
signals are strings, the population toggle is a boolean. -/
structure RankingConfig where
  goldWeight : String
  silverWeight : String
  bronzeWeight : String
  divideByPopulation : Bool
deriving DecidableEq, Repr

/-- The query-parameter surface: for each weight, either the parameter is
absent or it carries a string value; the population parameter only has
its presence observed. -/
structure QueryParams where
  gold : Option String
  silver : Option String
  bronze : Option String
  population : Bool
deriving DecidableEq, Repr

def defaultGoldWeight : String := "3"

def defaultSilverWeight : String := "2"

def defaultBronzeWeight : String := "1"

/-- The useVisibleTask body of the source: each weight parameter is
deleted when the signal equals its default and set to the signal value
otherwise; the population parameter is set exactly when the toggle is
on. -/
def encodeConfig (c : RankingConfig) : QueryParams :=
  { gold := if c.goldWeight = defaultGoldWeight then none else some c.goldWeight
    silver := if c.silverWeight = defaultSilverWeight then none else some c.silverWeight
    bronze := if c.bronzeWeight = defaultBronzeWeight then none else some c.bronzeWeight
    population := c.divideByPopulation }

/-- The signal initialization of the source: each weight signal reads its
query parameter, falling back to the default when absent; the population
toggle reads presence of the population parameter. -/
def decodeConfig (p : QueryParams) : RankingConfig :=
  { goldWeight := p.gold.getD defaultGoldWeight
    silverWeight := p.silver.getD defaultSilverWeight
    bronzeWeight := p.bronze.getD defaultBronzeWeight
    divideByPopulation := p.population }

/-- Raw JSON values, the input of the zod schemas. -/
inductive JValue where
  | null : JValue
  | bool : Bool → JValue
  | num : ℚ → JValue
  | str : String → JValue
  | arr : List JValue → JValue
  | obj : List (String × JValue) → JValue

/-- Field access on a raw value: the named key of an object, absent on
anything that is not an object. -/
def lookupField (v : JValue) (k : String) : Option JValue :=
  match v with
  | JValue.obj fields => fields.lookup k
  | _ => none

/-- z.number(): accepts a JSON number only; in particular a numeric
string is rejected, not coerced. -/
def zNumber : JValue → Option ℚ
  | JValue.num q => some q
  | _ => none

/-- z.string(). -/
def zString : JValue → Option String
  | JValue.str s => some s
  | _ => none

/-- z.string().nullable(). -/
def zStringNullable : JValue → Option (Option String)
  | JValue.str s => some (some s)
  | JValue.null => some none
  | _ => none

/-- A declared numeric field of an object: present and a number. -/
def numField (v : JValue) (k : String) : Option ℚ :=
  (lookupField v k).bind zNumber

/-- A declared string field of an object. -/
def strField (v : JValue) (k : String) : Option String :=
  (lookupField v k).bind zString

/-- A declared nullable string field of an object. -/
def strNullableField (v : JValue) (k : String) : Option (Option String) :=
  (lookupField v k).bind zStringNullable

/-- z.array element validation: all elements must validate, one failure
anywhere fails the whole array. -/
def zArrayAll (f : α → Option β) : List α → Option (List β)
  | [] => some []
  | x :: xs =>
      match f x, zArrayAll f xs with
      | some y, some ys => some (y :: ys)
      | _, _ => none

/-- The value must be a JSON array. -/
def zArrayShape : JValue → Option (List JValue)
  | JValue.arr xs => some xs
  | _ => none

/-- medalTableNOCSchema from the source. -/
def parseNOC (v : JValue) : Option MedalTableNOC := do
  let nid ← numField v "n_NOCID"
  let ngid ← numField v "n_NOCGeoID"
  let noc ← strField v "c_NOC"
  let nocShort ← strField v "c_NOCShort"
  let g ← numField v "n_Gold"
  let s ← numField v "n_Silver"
  let b ← numField v "n_Bronze"
  let t ← numField v "n_Total"
  let rg ← numField v "n_RankGold"
  let rsg ← numField v "n_RankSortGold"
  let rt ← numField v "n_RankTotal"
  let rst ← numField v "n_RankSortTotal"
  pure
    { n_NOCID := nid, n_NOCGeoID := ngid, c_NOC := noc, c_NOCShort := nocShort,
      n_Gold := g, n_Silver := s, n_Bronze := b, n_Total := t,
      n_RankGold := rg, n_RankSortGold := rsg, n_RankTotal := rt,
      n_RankSortTotal := rst }

/-- medalTableInfoSchema from the source. -/
def parseInfo (v : JValue) : Option MedalTableInfo := do
  let asOf ← strField v "c_AsOfDate"
  let et ← numField v "n_EventsTotal"
  let ef ← numField v "n_EventsFinished"
  let es ← numField v "n_EventsScheduled"
  let mg ← numField v "n_MedalsGold"
  let ms ← numField v "n_MedalsSilver"
  let mb ← numField v "n_MedalsBronze"
  let mt ← numField v "n_MedalsTotal"
  let sid ← numField v "n_SportID"
  let sport ← strNullableField v "c_Sport"
  let sportShort ← strNullableField v "c_SportShort"
  pure
    { c_AsOfDate := asOf, n_EventsTotal := et, n_EventsFinished := ef,
      n_EventsScheduled := es, n_MedalsGold := mg, n_MedalsSilver := ms,
      n_MedalsBronze := mb, n_MedalsTotal := mt, n_SportID := sid,
      c_Sport := sport, c_SportShort := sportShort }

/-- medalTableSchema from the source: the info object and the array of
NOC rows must all validate; any deviation anywhere yields none. -/
def parseMedalTable (v : JValue) : Option MedalTable := do
  let infoJ ← lookupField v "MedalTableInfo"
  let info ← parseInfo infoJ
  let nocJ ← lookupField v "MedalTableNOC"
  let xs ← zArrayShape nocJ
  let nocs ← zArrayAll parseNOC xs
  pure { MedalTableInfo := info, MedalTableNOC := nocs }

/-- Monotone-descending property of a ranked list: at every pair of
positions i before j, the score at i is JS greater-or-equal the score at
j. -/
def DescendingByScore (pop : Population) (gws sws bws : String) (norm : Bool)
    (r : List MedalTableNOC) : Prop :=
  ∀ i j : ℕ, ∀ hi : i < r.length, ∀ hj : j < r.length, i < j →
    jge (getIndex pop (r.get ⟨i, hi⟩) gws sws bws norm)
        (getIndex pop (r.get ⟨j, hj⟩) gws sws bws norm) = true

/-- Sample country row: one gold medal, nothing else. -/
def teamA : MedalTableNOC :=
  { n_NOCID := 1, n_NOCGeoID := 1, c_NOC := "Alpha", c_NOCShort := "ALP",
    n_Gold := 1, n_Silver := 0, n_Bronze := 0, n_Total := 1,
    n_RankGold := 1, n_RankSortGold := 1, n_RankTotal := 1, n_RankSortTotal := 1 }

/-- Sample country row: no medals at all. -/
def teamZ : MedalTableNOC := { teamA with n_Gold := 0 }

/-- Sample country row: two gold medals, nothing else. -/
def teamW : MedalTableNOC := { teamA with n_Gold := 2 }

/-- A population lookup with no entries. -/
def popNone : Population := fun _ => none

/-- A population lookup knowing only the sample short code ALP. -/
def popALP : Population := fun c => if c = "ALP" then some 1000 else none

/-- A raw feed info object that validates. -/
def infoOkJ : JValue :=
  JValue.obj [("c_AsOfDate", JValue.str "2024-08-11"),
    ("n_EventsTotal", JValue.num 329), ("n_EventsFinished", JValue.num 329),
    ("n_EventsScheduled", JValue.num 0), ("n_MedalsGold", JValue.num 329),
    ("n_MedalsSilver", JValue.num 330), ("n_MedalsBronze", JValue.num 385),
    ("n_MedalsTotal", JValue.num 1044), ("n_SportID", JValue.num 0),
    ("c_Sport", JValue.null), ("c_SportShort", JValue.null)]

/-- A raw country row whose gold count is the numeric string 3. -/
def badNocJ : JValue :=
  JValue.obj [("n_NOCID", JValue.num 1), ("n_NOCGeoID", JValue.num 1),
    ("c_NOC", JValue.str "Alpha"), ("c_NOCShort", JValue.str "ALP"),
    ("n_Gold", JValue.str "3"), ("n_Silver", JValue.num 0),
    ("n_Bronze", JValue.num 0), ("n_Total", JValue.num 0),
    ("n_RankGold", JValue.num 1), ("n_RankSortGold", JValue.num 1),
    ("n_RankTotal", JValue.num 1), ("n_RankSortTotal", JValue.num 1)]

/-- A raw feed payload that is valid except for the one numeric-string
gold count buried in the country array. -/
def badPayload : JValue :=
  JValue.obj [("MedalTableInfo", infoOkJ), ("MedalTableNOC", JValue.arr [badNocJ])]

/-- The declared numeric fields of the NOC row schema. -/
def nocNumFields : List String :=
  ["n_NOCID", "n_NOCGeoID", "n_Gold", "n_Silver", "n_Bronze", "n_Total",
   "n_RankGold", "n_RankSortGold", "n_RankTotal", "n_RankSortTotal"]

/-- The declared string fields of the NOC row schema. -/
def nocStrFields : List String := ["c_NOC", "c_NOCShort"]

/-- The declared numeric fields of the info schema. -/
def infoNumFields : List String :=
  ["n_EventsTotal", "n_EventsFinished", "n_EventsScheduled", "n_MedalsGold",
   "n_MedalsSilver", "n_MedalsBronze", "n_MedalsTotal", "n_SportID"]

/-- The declared nullable string fields of the info schema. -/
def infoNullableFields : List String := ["c_Sport", "c_SportShort"]

/-- A raw value conforms to the NOC row schema: every declared numeric
field is present and a number, every declared string field is present and
a string. -/
def NOCConforms (e : JValue) : Prop :=
  (∀ k ∈ nocNumFields, ∃ q : ℚ, lookupField e k = some (JValue.num q)) ∧
  (∀ k ∈ nocStrFields, ∃ s : String, lookupField e k = some (JValue.str s))

/-- A raw value conforms to the info schema: the date field is a string,
every declared numeric field is a number, and each nullable string field
is null or a string. -/
def InfoConforms (j : JValue) : Prop :=
  (∃ s : String, lookupField j "c_AsOfDate" = some (JValue.str s)) ∧
  (∀ k ∈ infoNumFields, ∃ q : ℚ, lookupField j k = some (JValue.num q)) ∧
  (∀ k ∈ infoNullableFields,
    lookupField j k = some JValue.null ∨
      ∃ s : String, lookupField j k = some (JValue.str s))

/-- A raw payload conforms to the full feed schema: a conforming info
object and an array field all of whose elements conform to the row
schema. A schema deviation anywhere in the payload is exactly the
negation of this predicate. -/
def PayloadConforms (v : JValue) : Prop :=
  (∃ j, lookupField v "MedalTableInfo" = some j ∧ InfoConforms j) ∧
  (∃ xs, lookupField v "MedalTableNOC" = some (JValue.arr xs) ∧
    ∀ e ∈ xs, NOCConforms e)

/-- A weight string that parses gives a real JS number. -/
lemma jsOfParseInt_eq {w : String} {n : ℤ} (h : parseIntJS w = some n) :
    jsOfParseInt w = JSNum.num (n : ℚ) := by
  simp [jsOfParseInt, h]

/-- Dividing anything by NaN gives NaN. -/
lemma jdiv_nan_right (x : JSNum) : jdiv x JSNum.nan = JSNum.nan := by
  cases x <;> rfl

/-- A finite JS number is some rational. -/
lemma isReal_exists {x : JSNum} (h : x.isReal = true) : ∃ q, x = JSNum.num q := by
  cases x with
  | num q => exact ⟨q, rfl⟩
  | nan => simp [JSNum.isReal] at h
  | inf => simp [JSNum.isReal] at h
  | ninf => simp [JSNum.isReal] at h

/-- Evaluation of getIndex when all three weight strings parse and, if
population normalization is on, the team has a positive population
entry. -/
lemma getIndex_eval (pop : Population) (team : MedalTableNOC)
    (gws sws bws : String) (g s b : ℤ) (norm : Bool) (p : ℕ)
    (hg : parseIntJS gws = some g) (hs : parseIntJS sws = some s)
    (hb : parseIntJS bws = some b)
    (hp : norm = true → pop team.c_NOCShort = some p ∧ 0 < p) :
    getIndex pop team gws sws bws norm =
      JSNum.num ((team.n_Gold * ((g : ℚ) + 1 / 100000) +
          team.n_Silver * ((s : ℚ) + 1 / 100000000) +
          team.n_Bronze * ((b : ℚ) + 1 / 100000000000)) /
        (if norm then (p : ℚ) else 1)) := by
  cases norm with
  | false =>
      simp [getIndex, jsOfParseInt_eq hg, jsOfParseInt_eq hs, jsOfParseInt_eq hb,
        jadd, jmul, jdiv]
  | true =>
      obtain ⟨hp1, hp2⟩ := hp rfl
      have hpne : ((p : ℕ) : ℚ) ≠ 0 := Nat.cast_ne_zero.mpr hp2.ne'
      simp [getIndex, jsOfParseInt_eq hg, jsOfParseInt_eq hs, jsOfParseInt_eq hb,
        hp1, jsOfPop, jadd, jmul, jdiv, hpne]

/-- On teams with finite scores, the sort relation compares the two
scores. -/
lemma medalSortLe_real {pop : Population} {gws sws bws : String} {norm : Bool}
    {a b : MedalTableNOC} {qa qb : ℚ}
    (ha : getIndex pop a gws sws bws norm = JSNum.num qa)
    (hb : getIndex pop b gws sws bws norm = JSNum.num qb) :
    medalSortLe pop gws sws bws norm a b = decide (qb ≤ qa) := by
  simp [medalSortLe, medalCmp, ha, hb, jsub, jsCmpKeeps, sub_nonpos]

/-- Inserting an element permutes consing it. -/
lemma insertSorted_perm (le : α → α → Bool) (x : α) (l : List α) :
    (insertSorted le x l).Perm (x :: l) := by
  induction l with
  | nil => exact List.Perm.refl _
  | cons y ys ih =>
      rw [insertSorted]
      by_cases h : le x y = true
      · rw [if_pos h]
      · rw [if_neg h]
        exact (ih.cons y).trans (List.Perm.swap x y ys)

/-- Insertion sort permutes its input. -/
lemma stableSort_perm (le : α → α → Bool) (l : List α) :
    (stableSort le l).Perm l := by
  induction l with
  | nil => exact List.Perm.refl _
  | cons x xs ih =>
      rw [stableSort]
      exact (insertSorted_perm le x (stableSort le xs)).trans (ih.cons x)

/-- Members after insertion come from the inserted element or the list. -/
lemma mem_insertSorted {le : α → α → Bool} {x z : α} {l : List α}
    (h : z ∈ insertSorted le x l) : z = x ∨ z ∈ l := by
  have h2 := (insertSorted_perm le x l).mem_iff.mp h
  simpa using h2

/-- Insertion preserves sortedness when the new element compares both
ways with the list members and chains through them transitively. -/
lemma insertSorted_pairwise {le : α → α → Bool} {x : α} {l : List α}
    (hl : l.Pairwise fun a b => le a b = true)
    (htot : ∀ y ∈ l, le x y = true ∨ le y x = true)
    (htrans : ∀ y ∈ l, ∀ z ∈ l, le x y = true → le y z = true → le x z = true) :
    (insertSorted le x l).Pairwise fun a b => le a b = true := by
  induction l with
  | nil => simp [insertSorted]
  | cons y ys ih =>
      rw [insertSorted]
      rcases List.pairwise_cons.mp hl with ⟨hy, hys⟩
      by_cases hxy : le x y = true
      · rw [if_pos hxy]
        refine List.pairwise_cons.mpr ⟨?_, hl⟩
        intro z hz
        rcases List.mem_cons.mp hz with rfl | hz
        · exact hxy
        · exact htrans y (List.mem_cons_self y ys) z (List.mem_cons_of_mem _ hz) hxy (hy z hz)
      · rw [if_neg hxy]
        refine List.pairwise_cons.mpr ⟨?_, ?_⟩
        · intro z hz
          rcases mem_insertSorted hz with rfl | hz
          · rcases htot y (List.mem_cons_self y ys) with h | h
            · exact absurd h hxy
            · exact h
          · exact hy z hz
        · exact ih hys (fun z hz => htot z (List.mem_cons_of_mem _ hz))
            (fun z hz w hw => htrans z (List.mem_cons_of_mem _ hz) w (List.mem_cons_of_mem _ hw))

/-- Insertion sort sorts, assuming totality and transitivity of the
relation on the elements of the list. -/
lemma stableSort_pairwise {le : α → α → Bool} {l : List α}
    (htot : ∀ a ∈ l, ∀ b ∈ l, le a b = true ∨ le b a = true)
    (htrans : ∀ a ∈ l, ∀ b ∈ l, ∀ c ∈ l,
      le a b = true → le b c = true → le a c = true) :
    (stableSort le l).Pairwise fun a b => le a b = true := by
  induction l with
  | nil => simp [stableSort]
  | cons x xs ih =>
      rw [stableSort]
      have hmem : ∀ z ∈ stableSort le xs, z ∈ xs :=
        fun z hz => (stableSort_perm le xs).mem_iff.mp hz
      refine insertSorted_pairwise ?_ ?_ ?_
      · exact ih
          (fun a ha b hb => htot a (List.mem_cons_of_mem _ ha) b (List.mem_cons_of_mem _ hb))
          (fun a ha b hb c hc => htrans a (List.mem_cons_of_mem _ ha)
            b (List.mem_cons_of_mem _ hb) c (List.mem_cons_of_mem _ hc))
      · intro y hy
        exact htot x (List.mem_cons_self x xs) y (List.mem_cons_of_mem _ (hmem y hy))
      · intro y hy z hz hxy hyz
        exact htrans x (List.mem_cons_self x xs) y (List.mem_cons_of_mem _ (hmem y hy))
          z (List.mem_cons_of_mem _ (hmem z hz)) hxy hyz

/-- Formatting Infinity falls through every tier and prints InfinityB. -/
lemma formatBigNumber_inf : formatBigNumber JSNum.inf = "InfinityB" := by
  norm_num [formatBigNumber, jlt, jdiv, toFixed0]
  rfl

/-- The codec round trip holds for every configuration value. -/
lemma decode_encode (c : RankingConfig) : decodeConfig (encodeConfig c) = c := by
  cases c with
  | mk g s b p =>
      simp only [encodeConfig, decodeConfig, RankingConfig.mk.injEq]
      refine ⟨?_, ?_, ?_, trivial⟩ <;> split_ifs <;> simp_all [Option.getD]

/-- A numeric field that validated was present and held a number. -/
lemma numField_some {e : JValue} {k : String} {q : ℚ}
    (h : numField e k = some q) :
    lookupField e k = some (JValue.num q) := by
  rw [numField] at h
  rcases hl : lookupField e k with _ | j
  · rw [hl] at h; simp at h
  · rw [hl] at h
    cases j <;> simp [zNumber] at h
    subst h
    rfl

/-- A string field that validated was present and held a string. -/
lemma strField_some {e : JValue} {k : String} {s : String}
    (h : strField e k = some s) :
    lookupField e k = some (JValue.str s) := by
  rw [strField] at h
  rcases hl : lookupField e k with _ | j
  · rw [hl] at h; simp at h
  · rw [hl] at h
    cases j <;> simp [zString] at h
    subst h
    rfl

/-- A nullable string field that validated was present and held null or a
string. -/
lemma strNullableField_some {e : JValue} {k : String} {o : Option String}
    (h : strNullableField e k = some o) :
    lookupField e k = some JValue.null ∨
      ∃ s : String, lookupField e k = some (JValue.str s) := by
  rw [strNullableField] at h
  rcases hl : lookupField e k with _ | j
  · rw [hl] at h; simp at h
  · rw [hl] at h
    cases j <;> simp [zStringNullable] at h
    · exact Or.inl rfl
    · exact Or.inr ⟨_, rfl⟩

/-- A row that validated conforms to the row schema on every declared
field. -/
lemma parseNOC_some_conforms {e : JValue} {r : MedalTableNOC}
    (h : parseNOC e = some r) : NOCConforms e := by
  simp only [parseNOC, bind, Option.bind_eq_some'] at h
  obtain ⟨nid, h1, ngid, h2, noc, h3, nocShort, h4, g, h5, s, h6, b, h7, t, h8,
    rg, h9, rsg, h10, rt, h11, rst, h12, -⟩ := h
  constructor
  · intro k hk
    simp only [nocNumFields, List.mem_cons, List.not_mem_nil, or_false] at hk
    rcases hk with rfl | rfl | rfl | rfl | rfl | rfl | rfl | rfl | rfl | rfl
    · exact ⟨_, numField_some h1⟩
    · exact ⟨_, numField_some h2⟩
    · exact ⟨_, numField_some h5⟩
    · exact ⟨_, numField_some h6⟩
    · exact ⟨_, numField_some h7⟩
    · exact ⟨_, numField_some h8⟩
    · exact ⟨_, numField_some h9⟩
    · exact ⟨_, numField_some h10⟩
    · exact ⟨_, numField_some h11⟩
    · exact ⟨_, numField_some h12⟩
  · intro k hk
    simp only [nocStrFields, List.mem_cons, List.not_mem_nil, or_false] at hk
    rcases hk with rfl | rfl
    · exact ⟨_, strField_some h3⟩
    · exact ⟨_, strField_some h4⟩

/-- An info object that validated conforms to the info schema on every
declared field. -/
lemma parseInfo_some_conforms {j : JValue} {r : MedalTableInfo}
    (h : parseInfo j = some r) : InfoConforms j := by
  simp only [parseInfo, bind, Option.bind_eq_some'] at h
  obtain ⟨asOf, h1, et, h2, ef, h3, es, h4, mg, h5, ms, h6, mb, h7, mt, h8,
    sid, h9, sport, h10, sportShort, h11, -⟩ := h
  refine ⟨⟨_, strField_some h1⟩, ?_, ?_⟩
  · intro k hk
    simp only [infoNumFields, List.mem_cons, List.not_mem_nil, or_false] at hk
    rcases hk with rfl | rfl | rfl | rfl | rfl | rfl | rfl | rfl
    · exact ⟨_, numField_some h2⟩
    · exact ⟨_, numField_some h3⟩
    · exact ⟨_, numField_some h4⟩
    · exact ⟨_, numField_some h5⟩
    · exact ⟨_, numField_some h6⟩
    · exact ⟨_, numField_some h7⟩
    · exact ⟨_, numField_some h8⟩
    · exact ⟨_, numField_some h9⟩
  · intro k hk
    simp only [infoNullableFields, List.mem_cons, List.not_mem_nil, or_false] at hk
    rcases hk with rfl | rfl
    · exact strNullableField_some h10
    · exact strNullableField_some h11

/-- An array validation that succeeded validated every element. -/
lemma zArrayAll_some_forall {f : α → Option β} {xs : List α} {ys : List β}
    (h : zArrayAll f xs = some ys) : ∀ e ∈ xs, ∃ r, f e = some r := by
  induction xs generalizing ys with
  | nil => intro e he; cases he
  | cons x zs ih =>
      intro e he
      rw [zArrayAll] at h
      rcases hfx : f x with _ | y
      · rw [hfx] at h; simp at h
      · rcases hz : zArrayAll f zs with _ | ws
        · rw [hfx, hz] at h; simp at h
        · rcases List.mem_cons.mp he with rfl | hm
          · exact ⟨y, hfx⟩
          · exact ih hz e hm

/-- A payload that validated conforms to the whole feed schema. -/
lemma parseMedalTable_some_conforms {v : JValue} {t : MedalTable}
    (h : parseMedalTable v = some t) : PayloadConforms v := by
  simp only [parseMedalTable, bind, Option.bind_eq_some'] at h
  obtain ⟨infoJ, hinfoJ, info, hinfo, nocJ, hnocJ, xs, hxs, rows, hrows, -⟩ := h
  refine ⟨⟨infoJ, hinfoJ, parseInfo_some_conforms hinfo⟩, ⟨xs, ?_, ?_⟩⟩
  · cases nocJ <;> simp [zArrayShape] at hxs
    subst hxs
    exact hnocJ
  · intro e he
    obtain ⟨r, hr⟩ := zArrayAll_some_forall hrows e he
    exact parseNOC_some_conforms hr

/-- C1: for every country record and every configuration whose weight
strings parse to integers g, s, b (and, when population normalization is
on, a present positive population), the ranking score equals
gold times (g + 1e-5) plus silver times (s + 1e-8) plus bronze times
(b + 1e-11), divided by the population when normalizeByPopulation is true
and by 1 otherwise. -/
theorem score_formula (pop : Population) (team : MedalTableNOC)
    (gws sws bws : String) (g s b : ℤ) (norm : Bool) (p : ℕ)
    (hg : parseIntJS gws = some g) (hs : parseIntJS sws = some s)
    (hb : parseIntJS bws = some b)
    (hp : norm = true → pop team.c_NOCShort = some p ∧ 0 < p) :
    getIndex pop team gws sws bws norm =
      JSNum.num ((team.n_Gold * ((g : ℚ) + 1 / 100000) +
          team.n_Silver * ((s : ℚ) + 1 / 100000000) +
          team.n_Bronze * ((b : ℚ) + 1 / 100000000000)) /
        (if norm then (p : ℚ) else 1)) :=
  getIndex_eval pop team gws sws bws g s b norm p hg hs hb hp

/-- C1 witness: the score formula instantiated at a concrete team,
weights 3, 2, 1 and population 1000. -/
theorem score_formula_witness :
    getIndex popALP teamA "3" "2" "1" true =
      JSNum.num ((teamA.n_Gold * (((3 : ℤ) : ℚ) + 1 / 100000) +
          teamA.n_Silver * (((2 : ℤ) : ℚ) + 1 / 100000000) +
          teamA.n_Bronze * (((1 : ℤ) : ℚ) + 1 / 100000000000)) /
        (if true then ((1000 : ℕ) : ℚ) else 1)) :=
  score_formula popALP teamA "3" "2" "1" 3 2 1 true 1000 (by decide) (by decide)
    (by decide) (fun _ => ⟨by decide, by decide⟩)

/-- C2 counterexample: with gold weight 0 and normalization off, the
score is not independent of the gold count: one gold medal scores
1e-5 while zero gold medals score 0, because the code adds the tie-break
epsilon to the weight before multiplying, so a zero weight does not zero
the medal contribution. -/
theorem weight_zero_gold_dependence_cex :
    getIndex popNone teamA "0" "2" "1" false ≠
      getIndex popNone teamZ "0" "2" "1" false := by
  have h1 : getIndex popNone teamA "0" "2" "1" false = JSNum.num (1 / 100000) := by
    rw [getIndex_eval popNone teamA "0" "2" "1" 0 2 1 false 1 (by decide) (by decide)
      (by decide) (by simp)]
    norm_num [teamA]
  have h2 : getIndex popNone teamZ "0" "2" "1" false = JSNum.num 0 := by
    rw [getIndex_eval popNone teamZ "0" "2" "1" 0 2 1 false 1 (by decide) (by decide)
      (by decide) (by simp)]
    norm_num [teamZ, teamA]
  rw [h1, h2]
  simp only [ne_eq, JSNum.num.injEq]
  norm_num

/-- C2 amended: a gold weight of 0 zeroes only the integer points
contribution of gold; the tie-break epsilon term remains, so the score is
gold times 1e-5 plus the silver and bronze terms, and gold still acts as
a tiebreaker. -/
theorem weight_zero_epsilon_remains (pop : Population) (team : MedalTableNOC)
    (sws bws : String) (s b : ℤ)
    (hs : parseIntJS sws = some s) (hb : parseIntJS bws = some b) :
    getIndex pop team "0" sws bws false =
      JSNum.num (team.n_Gold * (1 / 100000) +
        team.n_Silver * ((s : ℚ) + 1 / 100000000) +
        team.n_Bronze * ((b : ℚ) + 1 / 100000000000)) := by
  rw [getIndex_eval pop team "0" sws bws 0 s b false 1 (by decide) hs hb (by simp)]
  norm_num

/-- C2 amended witness: the zero-gold-weight score of the one-gold team
under default silver and bronze weights. -/
theorem weight_zero_epsilon_remains_witness :
    getIndex popNone teamA "0" "2" "1" false =
      JSNum.num (teamA.n_Gold * (1 / 100000) +
        teamA.n_Silver * (((2 : ℤ) : ℚ) + 1 / 100000000) +
        teamA.n_Bronze * (((1 : ℤ) : ℚ) + 1 / 100000000000)) :=
  weight_zero_epsilon_remains popNone teamA "2" "1" 2 1 (by decide) (by decide)

/-- C3 counterexample: the ranking sorts the MedalTableNOC array in place
with Array.prototype.sort, so after ranking the array is not unchanged:
on the two-element list with the zero-medal team first, the array ends up
reordered. -/
theorem sort_mutates_order_cex :
    sortMedals popNone "3" "2" "1" false [teamZ, teamA] ≠ [teamZ, teamA] := by
  have hA : getIndex popNone teamA "3" "2" "1" false = JSNum.num (3 + 1 / 100000) := by
    rw [getIndex_eval popNone teamA "3" "2" "1" 3 2 1 false 1 (by decide) (by decide)
      (by decide) (by simp)]
    norm_num [teamA]
  have hZ : getIndex popNone teamZ "3" "2" "1" false = JSNum.num 0 := by
    rw [getIndex_eval popNone teamZ "3" "2" "1" 3 2 1 false 1 (by decide) (by decide)
      (by decide) (by simp)]
    norm_num [teamZ, teamA]
  have hle : medalSortLe popNone "3" "2" "1" false teamZ teamA = false := by
    rw [medalSortLe_real hZ hA]
    simp only [decide_eq_false_iff_not]
    norm_num
  rw [sortMedals]
  simp only [stableSort, insertSorted, hle]
  simp only [Bool.false_eq_true, if_false, ne_eq, List.cons.injEq, not_and]
  intro h
  exfalso
  have hg : teamA.n_Gold = teamZ.n_Gold := by rw [h]
  simp [teamA, teamZ] at hg

/-- C3 amended: the ranking never drops, duplicates or rewrites records
and does not touch the configuration; the in-place sort only reorders the
array, so its post-state is a permutation of the input list. -/
theorem sort_preserves_multiset (pop : Population) (gws sws bws : String)
    (norm : Bool) (l : List MedalTableNOC) :
    (sortMedals pop gws sws bws norm l).Perm l :=
  stableSort_perm _ l

/-- C4 counterexample: with normalization on and a team whose short code
has no population entry, the computed score is the numeric value NaN, not
an explicit absent result: undefined enters the division and JS division
by undefined yields NaN. -/
theorem missing_population_nan_cex :
    getIndex popNone teamA "3" "2" "1" true = JSNum.nan := by
  simp [getIndex, popNone, jsOfPop, jdiv_nan_right]

/-- C4 amended: when normalization is on and the short code is absent
from the population lookup, the score is NaN for every weight
configuration; the divisor is the undefined lookup, never defaulted
to 1. -/
theorem missing_population_propagates_nan (pop : Population) (team : MedalTableNOC)
    (gws sws bws : String) (h : pop team.c_NOCShort = none) :
    getIndex pop team gws sws bws true = JSNum.nan := by
  simp [getIndex, h, jsOfPop, jdiv_nan_right]

/-- C4 amended witness: the NaN score at a concrete team missing from the
lookup. -/
theorem missing_population_propagates_nan_witness :
    getIndex popNone teamZ "3" "2" "1" true = JSNum.nan :=
  missing_population_propagates_nan popNone teamZ "3" "2" "1" rfl

/-- C5 counterexample: for a team with a population entry but a zero
weighted total, the population-ratio display is the string InfinityB, an
infinite value formatted through the B tier, not an explicit
not-applicable result. -/
theorem zero_total_ratio_cex :
    popRatioText popALP teamZ "3" "2" "1" = "InfinityB" := by
  rw [popRatioText]
  have hsum : jadd
      (jadd (jmul (JSNum.num teamZ.n_Gold) (jsOfParseInt "3"))
        (jmul (JSNum.num teamZ.n_Silver) (jsOfParseInt "2")))
      (jmul (JSNum.num teamZ.n_Bronze) (jsOfParseInt "1")) = JSNum.num 0 := by
    rw [jsOfParseInt_eq (show parseIntJS "3" = some 3 by decide),
      jsOfParseInt_eq (show parseIntJS "2" = some 2 by decide),
      jsOfParseInt_eq (show parseIntJS "1" = some 1 by decide)]
    simp only [jmul, jadd, JSNum.num.injEq]
    norm_num [teamZ, teamA]
  rw [hsum, show popALP teamZ.c_NOCShort = some 1000 from by decide]
  rw [jsOfPop]
  rw [show jdiv (JSNum.num ((1000 : ℕ) : ℚ)) (JSNum.num 0) = JSNum.inf by
    norm_num [jdiv]]
  exact formatBigNumber_inf

/-- C5 amended: whenever the weighted total is zero, the population is
present and positive, and the weights parse, the ratio display formats
positive Infinity and returns the string InfinityB instead of an explicit
not-applicable marker. -/
theorem zero_total_ratio_infinity (pop : Population) (team : MedalTableNOC)
    (gws sws bws : String) (g s b : ℤ) (p : ℕ)
    (hg : parseIntJS gws = some g) (hs : parseIntJS sws = some s)
    (hb : parseIntJS bws = some b)
    (hp : pop team.c_NOCShort = some p) (hp0 : 0 < p)
    (htot : team.n_Gold * (g : ℚ) + team.n_Silver * (s : ℚ) +
      team.n_Bronze * (b : ℚ) = 0) :
    popRatioText pop team gws sws bws = "InfinityB" := by
  rw [popRatioText]
  have hsum : jadd
      (jadd (jmul (JSNum.num team.n_Gold) (jsOfParseInt gws))
        (jmul (JSNum.num team.n_Silver) (jsOfParseInt sws)))
      (jmul (JSNum.num team.n_Bronze) (jsOfParseInt bws)) = JSNum.num 0 := by
    rw [jsOfParseInt_eq hg, jsOfParseInt_eq hs, jsOfParseInt_eq hb]
    simp [jmul, jadd, htot]
  rw [hsum, hp]
  have hpos : (0 : ℚ) < (p : ℚ) := by exact_mod_cast hp0
  rw [jsOfPop]
  rw [show jdiv (JSNum.num (p : ℚ)) (JSNum.num 0) = JSNum.inf by
    simp [jdiv, hpos, hpos.ne']]
  exact formatBigNumber_inf

/-- C5 amended witness: a team with two golds under gold weight 0 has
weighted total zero, and its ratio display is InfinityB. -/
theorem zero_total_ratio_infinity_witness :
    popRatioText popALP teamW "0" "2" "1" = "InfinityB" :=
  zero_total_ratio_infinity popALP teamW "0" "2" "1" 0 2 1 1000 (by decide)
    (by decide) (by decide) (by decide) (by decide)
    (by norm_num [teamW, teamA])

/-- C6 counterexample: the claim fails as stated on a valid feed under a
configuration it quantifies over: with normalization on and both teams
absent from the population lookup, every score is NaN, every JS
greater-or-equal comparison with NaN is false, and so the ranked output
is not monotonically descending in score at positions 0 and 1, whatever
order the implementation-defined sort of the inconsistent comparator
produces. -/
theorem sort_descending_nan_cex :
    ¬ DescendingByScore popNone "3" "2" "1" true
        (sortMedals popNone "3" "2" "1" true [teamZ, teamA]) := by
  have hnan : ∀ t : MedalTableNOC,
      getIndex popNone t "3" "2" "1" true = JSNum.nan := by
    intro t
    simp [getIndex, popNone, jsOfPop, jdiv_nan_right]
  have hlen : (sortMedals popNone "3" "2" "1" true [teamZ, teamA]).length = 2 := by
    rw [sortMedals,
      (stableSort_perm (medalSortLe popNone "3" "2" "1" true) [teamZ, teamA]).length_eq]
    rfl
  intro hdesc
  have h01 := hdesc 0 1 (by rw [hlen]; norm_num) (by rw [hlen]; norm_num)
    (by norm_num)
  rw [hnan, hnan] at h01
  simp [jge] at h01

/-- C6 amended: the ranked output is a permutation of the input list for
every feed and configuration, and is monotonically descending in score
whenever every team in the list has a finite score (the comparator is
then consistent and the ECMAScript sort result is the unique stable
sorted permutation); with a NaN score, as for a country missing from the
population lookup under normalization, the descending property fails
because every JS comparison with NaN is false. -/
theorem sort_perm_and_descending (pop : Population) (gws sws bws : String)
    (norm : Bool) (l : List MedalTableNOC)
    (hreal : ∀ t ∈ l, (getIndex pop t gws sws bws norm).isReal = true) :
    (sortMedals pop gws sws bws norm l).Perm l ∧
      DescendingByScore pop gws sws bws norm (sortMedals pop gws sws bws norm l) := by
  refine ⟨stableSort_perm _ l, ?_⟩
  have htot : ∀ a ∈ l, ∀ b ∈ l,
      medalSortLe pop gws sws bws norm a b = true ∨
        medalSortLe pop gws sws bws norm b a = true := by
    intro a ha b hb
    obtain ⟨qa, hqa⟩ := isReal_exists (hreal a ha)
    obtain ⟨qb, hqb⟩ := isReal_exists (hreal b hb)
    rw [medalSortLe_real hqa hqb, medalSortLe_real hqb hqa]
    rcases le_total qb qa with h | h
    · exact Or.inl (by simpa using h)
    · exact Or.inr (by simpa using h)
  have htrans : ∀ a ∈ l, ∀ b ∈ l, ∀ c ∈ l,
      medalSortLe pop gws sws bws norm a b = true →
        medalSortLe pop gws sws bws norm b c = true →
        medalSortLe pop gws sws bws norm a c = true := by
    intro a ha b hb c hc hab hbc
    obtain ⟨qa, hqa⟩ := isReal_exists (hreal a ha)
    obtain ⟨qb, hqb⟩ := isReal_exists (hreal b hb)
    obtain ⟨qc, hqc⟩ := isReal_exists (hreal c hc)
    rw [medalSortLe_real hqa hqb] at hab
    rw [medalSortLe_real hqb hqc] at hbc
    rw [medalSortLe_real hqa hqc]
    simp only [decide_eq_true_eq] at hab hbc ⊢
    exact le_trans hbc hab
  have hp := stableSort_pairwise htot htrans
  rw [List.pairwise_iff_get] at hp
  intro i j hi hj hij
  simp only [sortMedals] at hi hj ⊢
  have hmem : ∀ z ∈ stableSort (medalSortLe pop gws sws bws norm) l, z ∈ l :=
    fun z hz => (stableSort_perm _ l).mem_iff.mp hz
  have hle := hp ⟨i, hi⟩ ⟨j, hj⟩ hij
  obtain ⟨qi, hqi⟩ := isReal_exists (hreal _ (hmem _ (List.get_mem _ _ hi)))
  obtain ⟨qj, hqj⟩ := isReal_exists (hreal _ (hmem _ (List.get_mem _ _ hj)))
  rw [medalSortLe_real hqi hqj] at hle
  rw [hqi, hqj]
  simp only [jge, decide_eq_true_eq] at hle ⊢
  exact hle

/-- C6 witness: the permutation and descending properties at the concrete
two-team list, whose scores are all finite under default weights. -/
theorem sort_perm_and_descending_witness :
    (sortMedals popNone "3" "2" "1" false [teamZ, teamA]).Perm [teamZ, teamA] ∧
      DescendingByScore popNone "3" "2" "1" false
        (sortMedals popNone "3" "2" "1" false [teamZ, teamA]) := by
  refine sort_perm_and_descending popNone "3" "2" "1" false [teamZ, teamA] ?_
  intro t ht
  have hA : getIndex popNone teamA "3" "2" "1" false = JSNum.num (3 + 1 / 100000) := by
    rw [getIndex_eval popNone teamA "3" "2" "1" 3 2 1 false 1 (by decide) (by decide)
      (by decide) (by simp)]
    norm_num [teamA]
  have hZ : getIndex popNone teamZ "3" "2" "1" false = JSNum.num 0 := by
    rw [getIndex_eval popNone teamZ "3" "2" "1" 3 2 1 false 1 (by decide) (by decide)
      (by decide) (by simp)]
    norm_num [teamZ, teamA]
  rcases List.mem_cons.mp ht with rfl | ht2
  · rw [hZ]; rfl
  · rcases List.mem_cons.mp ht2 with rfl | ht3
    · rw [hA]; rfl
    · cases ht3

/-- C7: decoding the query parameters produced by encoding a
configuration against the defaults recovers the configuration, for every
configuration whose weights are decimal strings of integers between 0
and 10; the normalize flag is recovered as presence of the population
parameter. -/
theorem config_roundtrip (c : RankingConfig) (g s b : ℕ)
    (hg : c.goldWeight = toString g) (hg10 : g ≤ 10)
    (hs : c.silverWeight = toString s) (hs10 : s ≤ 10)
    (hb : c.bronzeWeight = toString b) (hb10 : b ≤ 10) :
    decodeConfig (encodeConfig c) = c :=
  decode_encode c

/-- C7 witness: the round trip at gold 5, silver 2, bronze 1 with
normalization on. -/
theorem config_roundtrip_witness :
    decodeConfig (encodeConfig
      { goldWeight := "5", silverWeight := "2", bronzeWeight := "1",
        divideByPopulation := true }) =
      { goldWeight := "5", silverWeight := "2", bronzeWeight := "1",
        divideByPopulation := true } :=
  config_roundtrip _ 5 2 1 (by decide) (by decide) (by decide) (by decide)
    (by decide) (by decide)

/-- C8: feed validation is strict and all-or-nothing. For every raw
payload: a numeric string in any of the declared numeric fields of the
info object fails the whole validation; a numeric string in any of the
declared numeric fields of any element of the NOC array fails the whole
validation; and any schema deviation anywhere in the payload, that is any
failure of the conformance predicate spelled out from the declared
schemas, makes the whole validation return none, with no partial
acceptance. -/
theorem schema_rejects_numeric_string (v : JValue) :
    (∀ infoJ : JValue, lookupField v "MedalTableInfo" = some infoJ →
      ∀ k ∈ infoNumFields, ∀ s : String,
        lookupField infoJ k = some (JValue.str s) → parseMedalTable v = none) ∧
    (∀ xs : List JValue, lookupField v "MedalTableNOC" = some (JValue.arr xs) →
      ∀ e ∈ xs, ∀ k ∈ nocNumFields, ∀ s : String,
        lookupField e k = some (JValue.str s) → parseMedalTable v = none) ∧
    (¬ PayloadConforms v → parseMedalTable v = none) := by
  have hfail : ¬ PayloadConforms v → parseMedalTable v = none := by
    intro hnc
    rcases hp : parseMedalTable v with _ | t
    · rfl
    · exact absurd (parseMedalTable_some_conforms hp) hnc
  refine ⟨?_, ?_, hfail⟩
  · intro infoJ hinfoJ k hk s hs
    apply hfail
    rintro ⟨⟨j, hj, hconf⟩, -⟩
    rw [hinfoJ] at hj
    injection hj with hj
    subst hj
    obtain ⟨-, hnum, -⟩ := hconf
    obtain ⟨q, hq⟩ := hnum k hk
    rw [hs] at hq
    simp at hq
  · intro xs hnoc e he k hk s hs
    apply hfail
    rintro ⟨-, ⟨ys, hys, hall⟩⟩
    rw [hnoc] at hys
    injection hys with hys
    injection hys with hys
    subst hys
    obtain ⟨hnum, -⟩ := hall e he
    obtain ⟨q, hq⟩ := hnum k hk
    rw [hs] at hq
    simp at hq

/-- C8 witness: a concrete payload, valid except that one gold count is
the numeric string 3, fails validation as a whole, through the NOC-array
conjunct of the theorem. -/
theorem schema_rejects_numeric_string_witness :
    parseMedalTable badPayload = none :=
  (schema_rejects_numeric_string badPayload).2.1 [badNocJ] rfl badNocJ
    (List.mem_singleton.mpr rfl) "n_Gold" (by simp [nocNumFields]) "3" rfl

/-- C9: the large-number formatter maps 0 to 0, 999 to 999, 1000 to 1K,
999999 to 1000K with no promotion to M, 1000000 to 1M and 1000000000 to
1B, rounding half away from zero to zero decimals at each tier (1500
gives 2K and 2500 gives 3K). -/
theorem formatBigNumber_values :
    formatBigNumber (JSNum.num 0) = "0" ∧
    formatBigNumber (JSNum.num 999) = "999" ∧
    formatBigNumber (JSNum.num 1000) = "1K" ∧
    formatBigNumber (JSNum.num 999999) = "1000K" ∧
    formatBigNumber (JSNum.num 1000000) = "1M" ∧
    formatBigNumber (JSNum.num 1000000000) = "1B" ∧
    formatBigNumber (JSNum.num 1500) = "2K" ∧
    formatBigNumber (JSNum.num 2500) = "3K" := by
  refine ⟨?_, ?_, ?_, ?_, ?_, ?_, ?_, ?_⟩ <;>
    · norm_num [formatBigNumber, jlt, jdiv, toFixed0]
      try rfl

/-- C10: every weight string that does not start with a parsable integer
makes getWeightText return the string NaN points: parseInt yields NaN,
which is neither 0 nor 1, so the plural branch interpolates NaN; there is
no fallback to a default or to the Tiebreaker label. -/
theorem weight_text_nan (w : String) (h : parseIntJS w = none) :
    getWeightText w = "NaN points" := by
  simp [getWeightText, h, jsIntToString]

/-- C10 witness: the string abc does not parse and labels as NaN
points. -/
theorem weight_text_nan_witness :
    parseIntJS "abc" = none ∧ getWeightText "abc" = "NaN points" :=
  ⟨by decide, weight_text_nan "abc" (by decide)⟩
